import Mathlib

/-!
Verification model of `active_erpt_generate_TDK.py`.

The script ingests per-board fault-report spreadsheets plus a shared
fault-code lookup sheet, derives generated identifier / address-expression
strings for each record, assigns fault codes by normalized exact-or-substring
matching against the lookup table, and writes one merged CSV.

The embedding below models the string pipeline character-by-character on the
ASCII fragment of the Python semantics (`str.strip`, `str.lower`,
`str.upper`, `re.sub(r'[^\w\s]', '')`, substring containment via `in`),
pandas cells as `Option` values (`none` = NaN), and the per-board try/except
loop as an `Option`-valued board runner.
-/

namespace GenerateTDK

/-! ## Character model (ASCII fragment of the Python string operations) -/

/-- Python `\s` / `str.strip` whitespace, ASCII fragment:
space, tab, newline, vertical tab, form feed, carriage return. -/
def isWsChar (c : Char) : Bool :=
  decide (c.toNat = 32 ∨ c.toNat = 9 ∨ c.toNat = 10 ∨ c.toNat = 11 ∨
          c.toNat = 12 ∨ c.toNat = 13)

/-- Python `\w` word characters, ASCII fragment: digits, letters, underscore. -/
def isWordCharB (c : Char) : Bool :=
  decide ((48 ≤ c.toNat ∧ c.toNat ≤ 57) ∨ (65 ≤ c.toNat ∧ c.toNat ≤ 90) ∨
          (97 ≤ c.toNat ∧ c.toNat ≤ 122) ∨ c.toNat = 95)

/-- A character survives `re.sub(r'[^\w\s]', '', s)` iff it is a word
character or whitespace. -/
def keepChar (c : Char) : Bool := isWordCharB c || isWsChar c

/-- ASCII alphanumeric (no underscore) — the character class named by the
spec sentence "remove all characters that are not alphanumeric or
whitespace". -/
def isAlnumChar (c : Char) : Bool :=
  decide ((48 ≤ c.toNat ∧ c.toNat ≤ 57) ∨ (65 ≤ c.toNat ∧ c.toNat ≤ 90) ∨
          (97 ≤ c.toNat ∧ c.toNat ≤ 122))

/-- ASCII decimal digit. -/
def isDigitChar (c : Char) : Bool := decide (48 ≤ c.toNat ∧ c.toNat ≤ 57)

/-- Python `str.lower`, ASCII fragment: map A-Z to a-z. -/
def lowerChar (c : Char) : Char :=
  if 65 ≤ c.toNat ∧ c.toNat ≤ 90 then Char.ofNat (c.toNat + 32) else c

/-- Python `str.upper`, ASCII fragment: map a-z to A-Z. -/
def upperChar (c : Char) : Char :=
  if 97 ≤ c.toNat ∧ c.toNat ≤ 122 then Char.ofNat (c.toNat - 32) else c

/-! ## String helpers -/

/-- Python `str.strip()`: drop leading and trailing whitespace. -/
def stripChars (l : List Char) : List Char :=
  ((l.dropWhile isWsChar).reverse.dropWhile isWsChar).reverse

/-- Python `str.strip()` at `String` level. -/
def stripStr (s : String) : String := ⟨stripChars s.data⟩

/-- Python `str.lower()` at `String` level (ASCII fragment). -/
def lowerStr (s : String) : String := ⟨s.data.map lowerChar⟩

/-- Python `str.upper()` at `String` level (ASCII fragment). -/
def upperStr (s : String) : String := ⟨s.data.map upperChar⟩

/-- `re.sub(r'[^\w\s]', '', s)`: delete every character that is neither a
word character nor whitespace. -/
def removeNonWordStr (s : String) : String := ⟨s.data.filter keepChar⟩

/-- The script's text normalizer, used verbatim on both sides of the match
(source lines 143 and 158): `re.sub(r'[^\w\s]', '', str(x).strip()).lower()`
— strip first, then delete non-word non-space characters, then lowercase. -/
def cleanText (s : String) : String :=
  ⟨((stripChars s.data).filter keepChar).map lowerChar⟩

/-- Does `needle` occur at the very start of `hay`? (helper for `pyIn`). -/
def leadsList : List Char → List Char → Bool
  | [], _ => true
  | _ :: _, [] => false
  | a :: as, b :: bs => a == b && leadsList as bs

/-- Python's `needle in hay` on strings: `needle` occurs contiguously
somewhere in `hay`; the empty needle occurs in every string. -/
def pyIn : List Char → List Char → Bool
  | needle, [] => leadsList needle []
  | needle, b :: bs => leadsList needle (b :: bs) || pyIn needle bs

/-- Python's `a in b` at `String` level. -/
def pyInStr (needle hay : String) : Bool := pyIn needle.data hay.data

/-- `dict.fromkeys`-style deduplication: keep the first occurrence of each
string, preserving order (source line 264). -/
def dedupFirst : List String → List String → List String
  | _, [] => []
  | seen, a :: as =>
    if seen.contains a then dedupFirst seen as else a :: dedupFirst (a :: seen) as

/-- Decimal digit character for `d < 10`. -/
def digitChar (d : Nat) : Char := Char.ofNat (48 + d)

/-- Decimal digit characters of `n`, most significant first; `fuel` bounds
the recursion and any `fuel > n` gives the exact decimal representation. -/
def decDigits : Nat → Nat → List Char
  | 0, _ => []
  | fuel + 1, n =>
    if n < 10 then [digitChar n] else decDigits fuel (n / 10) ++ [digitChar (n % 10)]

/-- Python `str(n)` for a non-negative int: decimal, no sign, no decimal
point, no leading zeros. -/
def natToDec (n : Nat) : String := ⟨decDigits (n + 1) n⟩

/-- `re.sub(r'[\r\n]+', ' ', s)`: collapse every maximal run of carriage
returns / line feeds into one space (source line 120); the flag records
whether the previous character belonged to such a run. -/
def collapseCRLFAux : Bool → List Char → List Char
  | _, [] => []
  | inRun, c :: cs =>
    if c == '\r' || c == '\n' then
      if inRun then collapseCRLFAux true cs else ' ' :: collapseCRLFAux true cs
    else c :: collapseCRLFAux false cs

/-- Newline-collapsing applied to the native fault description. -/
def collapseCRLF (s : String) : String := ⟨collapseCRLFAux false s.data⟩

/-- Stringified pandas cell: `astype(str)` renders a missing value (NaN) as
the literal text "nan". -/
def pandasStr : Option String → String
  | none => "nan"
  | some s => s

/-! ## Platform-to-prefix table and address expressions -/

/-- `simulator_vp_prefix_dict`, the fixed platform-name to variable-pool
prefix table from the top of the script. -/
def simulator_vp_prefix_dict : List (String × String) :=
  [("RS", "rsspm_erpt.RSSPM_ERPT_Varpool."),
   ("RH", "rhrede.RhredeVarpool."),
   ("WH", "whvpa.WhvpaVarpool."),
   ("FLS", "fls.FlsVarPool."),
   ("WA", "wa.WaVarPool."),
   ("IS", "is.IS_Varpool."),
   ("RA", "ra.RA_Varpool."),
   ("WS", "wsetc.WsetcVarpool."),
   ("DC", "dc.DcVarpool."),
   ("SD", "avis.AVISVarpool."),
   ("WSPM", "wsetc.WsetcVarpool."),
   ("RSPM", "rsspm_erpt.RSSPM_ERPT_Varpool."),
   ("RM", "rm_erpt.RM_ERPT_Varpool.")]

/-- `get_vp_prefix(pg_name)`: look the platform name up in the fixed table;
on a miss (`dict.get` returning `None`, or a falsy empty value) print a
warning and fall back to the default `'wsetc.WsetcVarpool.'`. The boolean
records whether the warning was emitted. -/
def get_vp_prefix (pgName : String) : String × Bool :=
  match simulator_vp_prefix_dict.find? (fun e => e.1 == pgName) with
  | some e => if e.2 == "" then ("wsetc.WsetcVarpool.", true) else (e.2, false)
  | none => ("wsetc.WsetcVarpool.", true)

/-- `fillna(0).astype(int).astype(str)` on a byte/bit offset cell: a missing
offset becomes 0, and the value is printed as a plain decimal integer. -/
def renderOffset (cell : Option Nat) : String := natToDec (cell.getD 0)

/-- The generated VP address expression
`{prefix}errRptInject[{board_id}][{byte}][{bit}]` (source lines 116-119). -/
def vpVarExpr (vpPfx : String) (boardId : Nat) (byteCell bitCell : Option Nat) : String :=
  vpPfx ++ "errRptInject[" ++ natToDec boardId ++ "][" ++
    renderOffset byteCell ++ "][" ++ renderOffset bitCell ++ "]"

/-! ## Records and the per-board transformation -/

/-- One row of a board's fault-report sheet. Text cells are modelled after
`astype(str)` coercion except the two description cells, where the script
distinguishes NaN (`Option`, `none` = missing). -/
structure FaultRecord where
  member : String
  device : String
  deviceIdx : String
  byteAddr : Option Nat
  bitAddr : Option Nat
  descNative : Option String
  descEnglish : Option String
deriving DecidableEq

/-- One row of the prepared output table `df_selected` (only the derived
columns; the three raw carried-over columns are not part of any claim). -/
structure OutputRecord where
  tdkName : String
  vpVar : String
  descNative : String
  descEnglish : String
  faultCode : String
  boardTag : String
deriving DecidableEq

/-- `prepare_output_for_board`, one row: derive the generated identifier,
the address expression, the newline-collapsed native description, the
stringified English description, an empty fault code and the board tag. -/
def prepareRow (pgName moduleCode vpPfx : String) (boardId : Nat) (tag : String)
    (r : FaultRecord) : OutputRecord :=
  { tdkName := upperStr pgName ++ "_ERPT_ACTIVE." ++ moduleCode ++ "_" ++
      upperStr r.member ++ "_" ++ r.device ++ "_" ++ r.deviceIdx
    vpVar := vpVarExpr vpPfx boardId r.byteAddr r.bitAddr
    descNative := collapseCRLF (pandasStr r.descNative)
    descEnglish := pandasStr r.descEnglish
    faultCode := ""
    boardTag := tag }

/-- `prepare_output_for_board` for a whole board: the VP prefix is chosen by
`get_vp_prefix` from the platform name. -/
def prepare_output_for_board (pgName moduleCode : String) (boardId : Nat)
    (tag : String) (records : List FaultRecord) : List OutputRecord :=
  let vp : String × Bool := get_vp_prefix pgName
  records.map (prepareRow pgName moduleCode vp.1 boardId tag)

/-! ## Lookup table and fault matcher -/

/-- `fault_mappings` construction (source lines 140-144): normalize each raw
English description, keep the event code verbatim. -/
def buildFaultMappings (rows : List (String × String)) : List (String × String) :=
  rows.map (fun r => (cleanText r.1, r.2))

/-- One candidate test of the matcher loop (source line 166): the cleaned
fault description equals the entry's cleaned description, or is a substring
of it. -/
def entryMatches (cleanDesc : String) (entry : String × String) : Bool :=
  cleanDesc == entry.1 || pyInStr cleanDesc entry.1

/-- First matching entry's code in scan order, if any. -/
def findCode (mappings : List (String × String)) (cleanDesc : String) : Option String :=
  match mappings.find? (entryMatches cleanDesc) with
  | some e => some e.2
  | none => none

/-- Fault code written for one record's English-description cell: a missing
cell is skipped (code stays the initial empty string), an unmatched
description leaves the empty string, a match copies the entry's code. -/
def codeFor (mappings : List (String × String)) (cell : Option String) : String :=
  match cell with
  | none => ""
  | some d =>
    match findCode mappings (cleanText d) with
    | some c => c
    | none => ""

/-- `matched_count` of `add_fault_codes_for_board`: records whose non-null
description found a matching entry. -/
def matchedCount (mappings : List (String × String)) (cells : List (Option String)) : Nat :=
  (cells.filter (fun cell =>
    match cell with
    | none => false
    | some d => (findCode mappings (cleanText d)).isSome)).length

/-- `not_matched_count`: records whose non-null description matched no entry. -/
def notMatchedCount (mappings : List (String × String)) (cells : List (Option String)) : Nat :=
  (cells.filter (fun cell =>
    match cell with
    | none => false
    | some d => (findCode mappings (cleanText d)).isNone)).length

/-- The matcher's in-place update of one output row (source line 167): the
fault-code column of row `idx` is overwritten from the matching entry; all
other columns are untouched. -/
def finalizeRecord (mappings : List (String × String)) (pre : OutputRecord)
    (r : FaultRecord) : OutputRecord :=
  { pre with faultCode := codeFor mappings r.descEnglish }

/-- One board's full pipeline: prepare every row, then let the matcher fill
the fault-code column (rows are aligned by index, as in the script). -/
def processBoard (pgName moduleCode vpPfx : String) (boardId : Nat) (tag : String)
    (mappings : List (String × String)) (records : List FaultRecord) : List OutputRecord :=
  records.map (fun r => finalizeRecord mappings (prepareRow pgName moduleCode vpPfx boardId tag r) r)

/-! ## The board loop and the saved columns -/

/-- `process_all_boards`: run every board through `runBoard` (whose `none`
models the caught per-board exception), keep the successes in order, and
merge them; with zero successes the run aborts (`sys.exit(1)`, modelled as
`none`). -/
def processAllBoards {β α : Type} (runBoard : β → Option (List α)) (boards : List β) :
    Option (List α) :=
  let results := boards.filterMap runBoard
  if results.isEmpty then none else some results.flatten

/-- Column names of the merged DataFrame, in creation order
(`prepare_output_for_board`). -/
def dfColumns (pgName moduleCode vpPfx : String) : List String :=
  ["成员名称", "器件", "器件编号",
   pgName ++ "_ERPT_ACTIVE." ++ moduleCode ++ "_成员名称_器件_器件编号",
   vpPfx ++ "errRptInject[x][x][x]",
   "故障说明", "故障说明（英文）", "故障码", "板卡标识"]

/-- `output_cols` of `save_results` (source lines 251-257). -/
def output_cols (pgName vpPfx : String) : List String :=
  [pgName ++ "_ERPT_ACTIVE.*_成员名称_器件_器件编号",
   vpPfx ++ "errRptInject[x][x][x]",
   "故障说明", "故障码", "故障说明（英文）"]

/-- Python `pattern.replace('*', '')`. -/
def removeStar (s : String) : String := ⟨s.data.filter (fun c => !(c == '*'))⟩

/-- `actual_cols` of `save_results` (source lines 260-264): keep the
DataFrame columns some de-starred pattern is a substring of, append the
three fixed names, deduplicate keeping first occurrences; this is the exact
column list handed to `to_csv`. -/
def actual_cols (pgName moduleCode vpPfx : String) : List String :=
  let selected := (dfColumns pgName moduleCode vpPfx).filter
    (fun col => (output_cols pgName vpPfx).any (fun p => pyInStr (removeStar p) col))
  dedupFirst [] (selected ++ ["故障说明", "故障码", "故障说明（英文）"])

/-! ## Spec-side definitions, for refinement comparison only -/

/-- The normalizer exactly as claim C4 words it: remove every character that
is neither alphanumeric nor whitespace, lowercase, then trim. -/
def claimNormalize (s : String) : String :=
  stripStr (lowerStr ⟨s.data.filter (fun c => isAlnumChar c || isWsChar c)⟩)

/-! ## Helper lemmas: characters -/

theorem charOfNat_toNat {n : Nat} (h : n < 55296) : (Char.ofNat n).toNat = n := by
  rw [Char.ofNat, dif_pos (Or.inl h)]
  rfl

theorem lowerChar_toNat_of_upper {c : Char} (h : 65 ≤ c.toNat ∧ c.toNat ≤ 90) :
    (lowerChar c).toNat = c.toNat + 32 := by
  rw [lowerChar, if_pos h, charOfNat_toNat (by omega)]

theorem lowerChar_eq_of_not_upper {c : Char} (h : ¬ (65 ≤ c.toNat ∧ c.toNat ≤ 90)) :
    lowerChar c = c := by
  rw [lowerChar, if_neg h]

theorem lowerChar_idem (c : Char) : lowerChar (lowerChar c) = lowerChar c := by
  by_cases h : 65 ≤ c.toNat ∧ c.toNat ≤ 90
  · have h2 := lowerChar_toNat_of_upper h
    exact lowerChar_eq_of_not_upper (by omega)
  · rw [lowerChar_eq_of_not_upper h, lowerChar_eq_of_not_upper h]

theorem keepChar_lowerChar {c : Char} (h : keepChar c = true) :
    keepChar (lowerChar c) = true := by
  simp only [keepChar, isWordCharB, isWsChar, Bool.or_eq_true, decide_eq_true_eq] at h ⊢
  by_cases hu : 65 ≤ c.toNat ∧ c.toNat ≤ 90
  · have h2 := lowerChar_toNat_of_upper hu
    omega
  · rw [lowerChar_eq_of_not_upper hu]
    exact h

theorem digitChar_toNat {d : Nat} (h : d < 10) : (digitChar d).toNat = 48 + d :=
  charOfNat_toNat (by omega)

theorem isDigitChar_digitChar {d : Nat} (h : d < 10) : isDigitChar (digitChar d) = true := by
  simp only [isDigitChar, digitChar_toNat h, decide_eq_true_eq]
  omega

theorem digitChar_eq_zero_iff {d : Nat} (h : d < 10) : digitChar d = '0' ↔ d = 0 := by
  constructor
  · intro he
    have ht := congrArg Char.toNat he
    rw [digitChar_toNat h] at ht
    have h0 : ('0' : Char).toNat = 48 := by decide
    omega
  · intro he
    subst he
    decide

/-! ## Helper lemmas: lists and strings -/

theorem mem_of_mem_stripChars {a : Char} {l : List Char} (h : a ∈ stripChars l) : a ∈ l := by
  simp only [stripChars, List.mem_reverse] at h
  exact List.dropWhile_subset _ (List.mem_reverse.mp (List.dropWhile_subset _ h))

theorem map_eq_self_of_fix {f : Char → Char} {l : List Char}
    (h : ∀ a ∈ l, f a = a) : l.map f = l := by
  induction l with
  | nil => rfl
  | cons x xs ih =>
    simp only [List.map_cons, h x (List.mem_cons_self x xs),
      ih (fun a ha => h a (List.mem_cons_of_mem x ha))]

theorem cleanText_data (s : String) :
    (cleanText s).data = ((stripChars s.data).filter keepChar).map lowerChar := rfl

theorem mem_cleanText {a : Char} {s : String} (h : a ∈ (cleanText s).data) :
    keepChar a = true ∧ lowerChar a = a := by
  rw [cleanText_data] at h
  rcases List.mem_map.mp h with ⟨b, hb, rfl⟩
  have hkb : keepChar b = true := (List.mem_filter.mp hb).2
  exact ⟨keepChar_lowerChar hkb, lowerChar_idem b⟩

theorem pyIn_nil_left : ∀ l : List Char, pyIn [] l = true
  | [] => rfl
  | _ :: _ => by simp [pyIn, leadsList]

theorem leadsList_append : ∀ l m : List Char, leadsList l (l ++ m) = true
  | [], _ => rfl
  | a :: as, m => by simp [leadsList, leadsList_append as m]

/-! ## C4 — the text normalizer -/

/-- C4 counterexample: the claim says the normalizer removes every character
that is neither alphanumeric nor whitespace, lowercases, then trims.  On the
input `"_ a"` the script keeps the underscore (regex `\w` includes it) and,
because it trims before removal rather than after, would also keep exposed
edge whitespace; the claimed pipeline gives `"a"` instead. -/
theorem c4_normalizer_counterexample :
    cleanText "_ a" = "_ a" ∧ claimNormalize "_ a" = "a" ∧
    (("_ a" : String) == "a") = false := by
  refine ⟨by decide, by decide, by decide⟩

/-- C4 amended: for every input string the normalizer first trims leading
and trailing whitespace, then removes every character that is neither a word
character (alphanumeric or underscore) nor whitespace, then lowercases;
whitespace exposed at the edges by the removal is not re-trimmed.  It is a
pure function, and the very same function is applied to lookup descriptions
and to fault descriptions. -/
theorem c4_normalizer_amended (s : String) :
    cleanText s = lowerStr (removeNonWordStr (stripStr s)) ∧
    (∀ rows : List (String × String),
      buildFaultMappings rows = rows.map (fun r => (cleanText r.1, r.2))) := by
  exact ⟨rfl, fun _ => rfl⟩

/-! ## C5 — idempotence of the normalizer -/

/-- C5 counterexample: the normalizer is not idempotent.  On `"! a"` the
first pass strips nothing (the ends are `'!'` and `'a'`), deletes the
`'!'` and returns `" a"`; the second pass then trims the newly exposed
leading space and returns `"a"`. -/
theorem c5_idempotence_counterexample :
    cleanText "! a" = " a" ∧ cleanText (cleanText "! a") = "a" ∧
    ((" a" : String) == "a") = false := by
  refine ⟨by decide, by decide, by decide⟩

/-- C5 amended: a second application of the normalizer only trims the
leading/trailing whitespace of the first result — `cleanText (cleanText s)`
equals `stripStr (cleanText s)` for every string; in particular the
normalizer is idempotent exactly on inputs whose normalization is already
trimmed. -/
theorem c5_idempotence_amended (s : String) :
    cleanText (cleanText s) = stripStr (cleanText s) := by
  have hmem : ∀ a ∈ stripChars (cleanText s).data, keepChar a = true ∧ lowerChar a = a :=
    fun a ha => mem_cleanText (mem_of_mem_stripChars ha)
  show String.mk (((stripChars (cleanText s).data).filter keepChar).map lowerChar) =
    String.mk (stripChars (cleanText s).data)
  rw [List.filter_eq_self.mpr (fun a ha => (hmem a ha).1),
    map_eq_self_of_fix (fun a ha => (hmem a ha).2)]

/-! ## Helper lemmas: the matcher -/

theorem findCode_eq_of_first (m : List (String × String)) (clean : String) :
    ∀ (i : Nat) (hi : i < m.length), (m.get ⟨i, hi⟩).1 = clean →
    (∀ j (hj : j < i), entryMatches clean (m.get ⟨j, Nat.lt_trans hj hi⟩) = false) →
    findCode m clean = some (m.get ⟨i, hi⟩).2 := by
  induction m with
  | nil => intro i hi _ _; simp at hi
  | cons e rest ih =>
    intro i hi hEq hEarly
    cases i with
    | zero =>
      have he : e.1 = clean := hEq
      have hm : entryMatches clean e = true := by simp [entryMatches, he]
      simp [findCode, List.find?_cons_of_pos _ hm]
    | succ iR =>
      have h0 : entryMatches clean e = false := hEarly 0 (Nat.succ_pos iR)
      have hiR : iR < rest.length := Nat.lt_of_succ_lt_succ hi
      have hrec := ih iR hiR hEq (fun j hj => hEarly (j + 1) (Nat.succ_lt_succ hj))
      simp only [findCode] at hrec ⊢
      rw [List.find?_cons_of_neg _ (by simp [h0])]
      exact hrec

theorem codeFor_some (m : List (String × String)) (d : String) :
    codeFor m (some d) = (findCode m (cleanText d)).getD "" := by
  cases h : findCode m (cleanText d) <;> simp [codeFor, h]

theorem codeFor_provenance (m : List (String × String)) (cell : Option String) :
    codeFor m cell = "" ∨ ∃ e ∈ m, codeFor m cell = e.2 := by
  cases cell with
  | none => exact Or.inl rfl
  | some d =>
    cases hf : findCode m (cleanText d) with
    | none => exact Or.inl (by simp [codeFor, hf])
    | some c =>
      right
      unfold findCode at hf
      cases hfind : m.find? (entryMatches (cleanText d)) with
      | none => rw [hfind] at hf; simp at hf
      | some e =>
        rw [hfind] at hf
        simp only [Option.some.injEq] at hf
        exact ⟨e, List.mem_of_find?_eq_some hfind, by simp [codeFor, findCode, hfind, hf]⟩

/-! ## C3 — the exact-match property -/

/-- C3 counterexample: an exact normalized match does not guarantee that
this entry's code is assigned.  With the lookup table rows
`("Over Voltage Alarm!", "X")` then `("Voltage", "Y")`, the description
`"Voltage"` normalizes exactly to the second entry's normalized description
`"voltage"`, yet the matcher assigns `"X"`: the scan hits the first entry
earlier because `"voltage"` is a substring of `"over voltage alarm"`. -/
theorem c3_exact_match_counterexample :
    buildFaultMappings [("Over Voltage Alarm!", "X"), ("Voltage", "Y")] =
      [("over voltage alarm", "X"), ("voltage", "Y")] ∧
    cleanText "Voltage" = "voltage" ∧
    codeFor (buildFaultMappings [("Over Voltage Alarm!", "X"), ("Voltage", "Y")])
      (some "Voltage") = "X" ∧
    (("X" : String) == "Y") = false := by
  refine ⟨by decide, by decide, by decide, by decide⟩

/-- C3 amended: if the normalized description equals the normalized
description of entry `i` of the lookup table, and no entry before `i`
matches (by equality or containment), then the matcher assigns entry `i`'s
code; in general an exact match guarantees that the code of the first
matching entry in scan order is assigned. -/
theorem c3_exact_match_first_wins (m : List (String × String)) (d : String)
    (i : Nat) (hi : i < m.length) (hEq : (m.get ⟨i, hi⟩).1 = cleanText d)
    (hEarly : ∀ j (hj : j < i),
      entryMatches (cleanText d) (m.get ⟨j, Nat.lt_trans hj hi⟩) = false) :
    codeFor m (some d) = (m.get ⟨i, hi⟩).2 := by
  rw [codeFor_some, findCode_eq_of_first m (cleanText d) i hi hEq hEarly]
  rfl

/-- C3 witness: a concrete two-entry table where the exactly-matching entry
is second and the first entry does not match, so its code `"B"` is
assigned. -/
theorem c3_exact_match_first_wins_witness :
    codeFor (buildFaultMappings [("alpha beta", "A"), ("Voltage", "B")]) (some "Voltage") = "B" := by
  have hi : 1 < (buildFaultMappings [("alpha beta", "A"), ("Voltage", "B")]).length := by decide
  have h := c3_exact_match_first_wins
    (buildFaultMappings [("alpha beta", "A"), ("Voltage", "B")]) "Voltage" 1 hi
    (by rfl)
    (fun j hj => by
      have hj0 : j = 0 := by omega
      subst hj0
      rfl)
  exact h.trans (by rfl)

/-! ## C9 — descriptions that normalize to the empty string -/

/-- C9: a record whose English description is non-null but normalizes to the
empty string matches the very first entry of any non-empty lookup table
(the empty string is a Python-substring of every string), its code is
copied, and the record is counted as a success. -/
theorem c9_empty_normalization_matches_first (e : String × String)
    (rest : List (String × String)) (d : String) (h : cleanText d = "") :
    codeFor (e :: rest) (some d) = e.2 ∧ matchedCount (e :: rest) [some d] = 1 := by
  have hp : pyInStr "" e.1 = true := pyIn_nil_left e.1.data
  have hm : entryMatches (cleanText d) e = true := by
    rw [h]
    simp [entryMatches, hp]
  have hf : findCode (e :: rest) (cleanText d) = some e.2 := by
    simp [findCode, List.find?_cons_of_pos _ hm]
  constructor
  · rw [codeFor_some, hf]
    rfl
  · simp [matchedCount, hf]

/-- C9 witness: `"?!"` normalizes to the empty string and takes the first
entry's code in a two-entry table, counted as one success. -/
theorem c9_empty_normalization_witness :
    codeFor [("over voltage", "0x10"), ("ground fault", "0x11")] (some "?!") = "0x10" ∧
    matchedCount [("over voltage", "0x10"), ("ground fault", "0x11")] [some "?!"] = 1 :=
  c9_empty_normalization_matches_first ("over voltage", "0x10") [("ground fault", "0x11")]
    "?!" (by decide)

/-! ## C2 — fault-code provenance invariant -/

/-- C2: after the matcher has run on a board, every output record's fault
code is either the empty string or the code of some entry of the lookup
table built for that board — never any other string. -/
theorem c2_fault_code_provenance (raw : List (String × String)) (pg mc vpPfx : String)
    (bid : Nat) (tag : String) (records : List FaultRecord) (out : OutputRecord)
    (hmem : out ∈ processBoard pg mc vpPfx bid tag (buildFaultMappings raw) records) :
    out.faultCode = "" ∨ ∃ e ∈ buildFaultMappings raw, out.faultCode = e.2 := by
  rcases List.mem_map.mp hmem with ⟨r, _, rfl⟩
  simpa [finalizeRecord] using codeFor_provenance (buildFaultMappings raw) r.descEnglish

/-- C2 witness: a record with a missing English description passes through a
board with a one-entry lookup table; its fault code is the empty string. -/
theorem c2_fault_code_provenance_witness :
    ({ tdkName := "RS_ERPT_ACTIVE.WH_M_d_1", vpVar := "p.errRptInject[1][0][0]",
       descNative := "nan", descEnglish := "nan", faultCode := "",
       boardTag := "b" } : OutputRecord).faultCode = "" ∨
    ∃ e ∈ buildFaultMappings [("x", "y")],
      ({ tdkName := "RS_ERPT_ACTIVE.WH_M_d_1", vpVar := "p.errRptInject[1][0][0]",
         descNative := "nan", descEnglish := "nan", faultCode := "",
         boardTag := "b" } : OutputRecord).faultCode = e.2 :=
  c2_fault_code_provenance [("x", "y")] "RS" "WH" "p." 1 "b"
    [⟨"m", "d", "1", none, none, none, none⟩] _ (by decide)

/-! ## C6 — per-board failure isolation -/

/-- C6: a failing board (modelled by the runner returning `none`, as the
caught exception does in the script) is skipped while every other board is
still processed — the run result is the same as if the failing board were
absent — and every row of a successful merged output comes from a board
whose processing succeeded. -/
theorem c6_board_isolation {β α : Type} (runBoard : β → Option (List α))
    (pre post : List β) (b : β) (hfail : runBoard b = none) :
    processAllBoards runBoard (pre ++ b :: post) = processAllBoards runBoard (pre ++ post) ∧
    (∀ out, processAllBoards runBoard (pre ++ b :: post) = some out →
      ∀ r ∈ out, ∃ bd ∈ pre ++ b :: post, ∃ tbl, runBoard bd = some tbl ∧ r ∈ tbl) := by
  constructor
  · simp only [processAllBoards, List.filterMap_append, List.filterMap_cons_none hfail]
  · intro out hout r hr
    simp only [processAllBoards] at hout
    cases hemp : ((pre ++ b :: post).filterMap runBoard).isEmpty with
    | true =>
      rw [hemp, if_pos rfl] at hout
      exact Option.noConfusion hout
    | false =>
      rw [hemp, if_neg (by simp)] at hout
      have hout2 := Option.some.inj hout
      subst hout2
      rcases List.mem_flatten.mp hr with ⟨tbl, htbl, hrtbl⟩
      rcases List.mem_filterMap.mp htbl with ⟨bd, hbd, hrun⟩
      exact ⟨bd, hbd, tbl, hrun, hrtbl⟩

/-- C6 witness: board 1 of three fails, boards 0 and 2 still flow into the
merged result. -/
theorem c6_board_isolation_witness :
    processAllBoards (fun n : Nat => if n = 1 then none else some [n]) ([0] ++ 1 :: [2]) =
      processAllBoards (fun n : Nat => if n = 1 then none else some [n]) ([0] ++ [2]) :=
  (c6_board_isolation (fun n : Nat => if n = 1 then none else some [n]) [0] [2] 1
    (by decide)).1

/-! ## C7 — unknown platform name falls back to the default prefix -/

theorem leadsList_vpVarExpr (p : String) (bid : Nat) (byte bit : Option Nat) :
    leadsList p.data (vpVarExpr p bid byte bit).data = true := by
  have hd : (vpVarExpr p bid byte bit).data =
      p.data ++ ("errRptInject[" ++ natToDec bid ++ "][" ++ renderOffset byte ++ "][" ++
        renderOffset bit ++ "]").data := by
    simp [vpVarExpr, String.data_append, List.append_assoc]
  rw [hd]
  exact leadsList_append _ _

/-- C7: for a platform name absent from the fixed table, `get_vp_prefix`
does not fail: it returns the documented default prefix together with the
warning flag, and every address expression generated for such a platform
starts with that default prefix. -/
theorem c7_default_on_unknown_platform (pg : String)
    (h : ∀ e ∈ simulator_vp_prefix_dict, ¬ e.1 = pg) :
    get_vp_prefix pg = ("wsetc.WsetcVarpool.", true) ∧
    ∀ (mc : String) (bid : Nat) (tag : String) (records : List FaultRecord)
      (out : OutputRecord), out ∈ prepare_output_for_board pg mc bid tag records →
      leadsList "wsetc.WsetcVarpool.".data out.vpVar.data = true := by
  have hfind : simulator_vp_prefix_dict.find? (fun e => e.1 == pg) = none :=
    List.find?_eq_none.mpr (fun e he => by simpa using h e he)
  have hvp : get_vp_prefix pg = ("wsetc.WsetcVarpool.", true) := by
    simp [ get_vp_prefix, hfind]
  refine ⟨hvp, ?_⟩
  intro mc bid tag records out hmem
  simp only [prepare_output_for_board, hvp] at hmem
  rcases List.mem_map.mp hmem with ⟨r, _, rfl⟩
  simpa [prepareRow] using leadsList_vpVarExpr "wsetc.WsetcVarpool." bid r.byteAddr r.bitAddr

/-- C7 witness: the platform name `"ZZ"` is not in the table; the default
prefix and the warning flag come back. -/
theorem c7_default_on_unknown_platform_witness :
    get_vp_prefix "ZZ" = ("wsetc.WsetcVarpool.", true) :=
  (c7_default_on_unknown_platform "ZZ" (by decide)).1

/-! ## C8 — integer rendering of byte/bit offsets -/

theorem decDigits_all_digits : ∀ (fuel n : Nat), n < fuel →
    ∀ c ∈ decDigits fuel n, isDigitChar c = true := by
  intro fuel
  induction fuel with
  | zero => intro n h; omega
  | succ f ih =>
    intro n h c hc
    by_cases h10 : n < 10
    · simp only [decDigits, if_pos h10, List.mem_singleton] at hc
      subst hc
      exact isDigitChar_digitChar h10
    · simp only [decDigits, if_neg h10, List.mem_append, List.mem_singleton] at hc
      have hdiv : n / 10 < n := Nat.div_lt_self (by omega) (by omega)
      rcases hc with hc | hc
      · exact ih (n / 10) (by omega) c hc
      · subst hc
        exact isDigitChar_digitChar (Nat.mod_lt _ (by omega))

theorem decDigits_ne_nil (fuel n : Nat) (h : n < fuel) : decDigits fuel n ≠ [] := by
  cases fuel with
  | zero => omega
  | succ f =>
    by_cases h10 : n < 10
    · simp [decDigits, if_pos h10]
    · simp [decDigits, if_neg h10]

theorem head?_append_left {l m : List Char} (h : l ≠ []) : (l ++ m).head? = l.head? := by
  cases l with
  | nil => exact absurd rfl h
  | cons a as => rfl

theorem decDigits_head_eq_zero : ∀ (fuel n : Nat), n < fuel →
    (((decDigits fuel n).head? = some '0') ↔ n = 0) := by
  intro fuel
  induction fuel with
  | zero => intro n h; omega
  | succ f ih =>
    intro n h
    by_cases h10 : n < 10
    · simp only [decDigits, if_pos h10, List.head?_cons, Option.some.injEq]
      exact digitChar_eq_zero_iff h10
    · have hdiv : n / 10 < n := Nat.div_lt_self (by omega) (by omega)
      have hne := decDigits_ne_nil f (n / 10) (by omega)
      simp only [decDigits, if_neg h10]
      rw [head?_append_left hne, ih (n / 10) (by omega)]
      have hz : ¬ (n / 10 = 0) := by
        rw [Nat.div_eq_zero_iff (by omega)]
        omega
      constructor
      · intro hq; exact absurd hq hz
      · intro hq; omega

theorem natToDec_head_eq_zero (n : Nat) : (((natToDec n).data.head? = some '0') ↔ n = 0) :=
  decDigits_head_eq_zero (n + 1) n (by omega)

/-- C8: byte and bit offsets are rendered as plain decimal integers — every
character of the rendering is a digit (so there is no decimal point), the
leading character is `'0'` only for the value 0 itself (no leading zeros), a
missing offset renders as `"0"`, value 5 renders as `"5"`, and the rendered
offsets are spliced verbatim into the generated address expression. -/
theorem c8_offset_rendering (byteCell bitCell : Option Nat) (vpPfx : String) (bid : Nat) :
    renderOffset none = "0" ∧
    renderOffset (some 5) = "5" ∧
    (renderOffset byteCell).data.all isDigitChar = true ∧
    isDigitChar '.' = false ∧
    (((renderOffset byteCell).data.head? = some '0') ↔ byteCell.getD 0 = 0) ∧
    vpVarExpr vpPfx bid byteCell bitCell =
      vpPfx ++ "errRptInject[" ++ natToDec bid ++ "][" ++ renderOffset byteCell ++ "][" ++
        renderOffset bitCell ++ "]" := by
  refine ⟨by decide, by decide, ?_, by decide, natToDec_head_eq_zero _, rfl⟩
  exact List.all_eq_true.mpr (decDigits_all_digits _ _ (by omega))

/-! ## C10 — missing English description cells -/

/-- C10: a record whose English-description cell is missing gets the literal
text "nan" (the stringified NaN) in the output's English-description field,
while its fault code stays the empty string because the matcher skips the
record. -/
theorem c10_missing_english_nan (pg mc vpPfx : String) (bid : Nat) (tag : String)
    (m : List (String × String)) (r : FaultRecord) (h : r.descEnglish = none) :
    (finalizeRecord m (prepareRow pg mc vpPfx bid tag r) r).descEnglish = "nan" ∧
    (finalizeRecord m (prepareRow pg mc vpPfx bid tag r) r).faultCode = "" := by
  constructor
  · simp [finalizeRecord, prepareRow, h, pandasStr]
  · simp [finalizeRecord, h, codeFor]

/-- C10 witness: concrete record with a missing English cell. -/
theorem c10_missing_english_nan_witness :
    (finalizeRecord [("a", "b")]
      (prepareRow "RS" "WH" "p." 1 "tag" ⟨"m", "d", "1", none, none, none, none⟩)
      ⟨"m", "d", "1", none, none, none, none⟩).descEnglish = "nan" ∧
    (finalizeRecord [("a", "b")]
      (prepareRow "RS" "WH" "p." 1 "tag" ⟨"m", "d", "1", none, none, none, none⟩)
      ⟨"m", "d", "1", none, none, none, none⟩).faultCode = "" :=
  c10_missing_english_nan "RS" "WH" "p." 1 "tag" [("a", "b")]
    ⟨"m", "d", "1", none, none, none, none⟩ rfl

/-! ## C1 — the columns of the written output artifact -/

/-- C1 evaluated at a representative successful run (platform "RS", module
code "WH"): the column list handed to `to_csv` has only four columns — the
address expression, the native description, the English description and the
fault code, in that order.  The generated-identifier column is present in
the DataFrame but is dropped by the pattern filter: after
`pattern.replace('*', '')` the identifier pattern reads
`RS_ERPT_ACTIVE._成员名称_器件_器件编号`, which is not a substring of the
actual column name `RS_ERPT_ACTIVE.WH_成员名称_器件_器件编号`.  The board-tag
column is, as claimed, absent. -/
theorem c1_saved_columns_bug :
    actual_cols "RS" "WH" "rsspm_erpt.RSSPM_ERPT_Varpool." =
      ["rsspm_erpt.RSSPM_ERPT_Varpool.errRptInject[x][x][x]",
       "故障说明", "故障说明（英文）", "故障码"] ∧
    (dfColumns "RS" "WH" "rsspm_erpt.RSSPM_ERPT_Varpool.").contains
      "RS_ERPT_ACTIVE.WH_成员名称_器件_器件编号" = true ∧
    (actual_cols "RS" "WH" "rsspm_erpt.RSSPM_ERPT_Varpool.").contains
      "RS_ERPT_ACTIVE.WH_成员名称_器件_器件编号" = false ∧
    (actual_cols "RS" "WH" "rsspm_erpt.RSSPM_ERPT_Varpool.").contains "板卡标识" = false := by
  refine ⟨by decide, by decide, by decide, by decide⟩

end GenerateTDK
